import Mathlib

/-!
Shallow embedding of the stack-unwinding description engine of
lldb/include/lldb/Symbol/UnwindPlan.h (classes AbstractRegisterLocation,
FAValue, Row, UnwindPlan).

Only the header is part of the excerpt; every definition below whose body
lives in UnwindPlan.cpp (not in the excerpt) carries a doc comment starting
with "Modelled from the spec:" and follows the specification's words.
All other definitions are translated directly from the inline code of the
header.

Machine integers are modelled as Nat (uint32_t, uint64_t, uint16_t) and
Int (int32_t, int64_t); pointers to borrowed DWARF-expression opcode
memory are modelled as Nat addresses with 0 standing for nullptr.
-/

/-- The lldb invalid-register sentinel LLDB_INVALID_REGNUM, i.e. UINT32_MAX. -/
def LLDB_INVALID_REGNUM : Nat := 4294967295

/-- UnwindPlan.h: enum AbstractRegisterLocation::RestoreType. -/
inductive RestoreType where
  | unspecified
  | undefined
  | same
  | atCFAPlusOffset
  | isCFAPlusOffset
  | atAFAPlusOffset
  | isAFAPlusOffset
  | inOtherRegister
  | atDWARFExpression
  | isDWARFExpression
  | isConstant
  deriving DecidableEq

/-- The anonymous union m_location of AbstractRegisterLocation: exactly one
member is active at a time.  offset is int32_t, reg_num is uint32_t, the
expr member is a borrowed pointer (Nat address, 0 for nullptr) plus a
uint16_t length, constant_value is uint64_t.  Default construction
m_location() zero-initializes the union, activating the first member
(offset = 0). -/
inductive RegisterLocationUnion where
  | offset (v : Int)
  | reg_num (v : Nat)
  | expr (opcodes : Nat) (length : Nat)
  | constant_value (v : Nat)
  deriving DecidableEq

/-- UnwindPlan.h: class UnwindPlan::Row::AbstractRegisterLocation,
a discriminant m_type plus the union m_location. -/
structure AbstractRegisterLocation where
  m_type : RestoreType := .unspecified
  m_location : RegisterLocationUnion := .offset 0
  deriving DecidableEq

/-- The default constructor AbstractRegisterLocation() : m_location() {} with
the in-class initializer m_type = unspecified. -/
def AbstractRegisterLocation.init : AbstractRegisterLocation := {}

/-- SetUnspecified writes only m_type; the union keeps its previous member. -/
def AbstractRegisterLocation.SetUnspecified (l : AbstractRegisterLocation) :
    AbstractRegisterLocation :=
  { l with m_type := .unspecified }

/-- SetUndefined writes only m_type; the union keeps its previous member. -/
def AbstractRegisterLocation.SetUndefined (l : AbstractRegisterLocation) :
    AbstractRegisterLocation :=
  { l with m_type := .undefined }

/-- SetSame writes only m_type; the union keeps its previous member. -/
def AbstractRegisterLocation.SetSame (l : AbstractRegisterLocation) :
    AbstractRegisterLocation :=
  { l with m_type := .same }

def AbstractRegisterLocation.IsSame (l : AbstractRegisterLocation) : Bool :=
  l.m_type == .same

def AbstractRegisterLocation.IsUnspecified (l : AbstractRegisterLocation) : Bool :=
  l.m_type == .unspecified

def AbstractRegisterLocation.IsUndefined (l : AbstractRegisterLocation) : Bool :=
  l.m_type == .undefined

def AbstractRegisterLocation.IsConstant (l : AbstractRegisterLocation) : Bool :=
  l.m_type == .isConstant

def AbstractRegisterLocation.SetIsConstant (l : AbstractRegisterLocation)
    (value : Nat) : AbstractRegisterLocation :=
  { l with m_type := .isConstant, m_location := .constant_value value }

/-- GetConstant returns m_location.constant_value with NO tag guard (unlike
every other accessor of this class).  The read is determined by the union
state alone: it returns the constant_value member if that member is active;
when another member is active the C++ read of the inactive union member has
no tag-determined value, modelled as none. -/
def AbstractRegisterLocation.GetConstant (l : AbstractRegisterLocation) :
    Option Nat :=
  match l.m_location with
  | .constant_value v => some v
  | _ => none

def AbstractRegisterLocation.SetAtCFAPlusOffset (l : AbstractRegisterLocation)
    (offset : Int) : AbstractRegisterLocation :=
  { l with m_type := .atCFAPlusOffset, m_location := .offset offset }

def AbstractRegisterLocation.SetIsCFAPlusOffset (l : AbstractRegisterLocation)
    (offset : Int) : AbstractRegisterLocation :=
  { l with m_type := .isCFAPlusOffset, m_location := .offset offset }

def AbstractRegisterLocation.SetAtAFAPlusOffset (l : AbstractRegisterLocation)
    (offset : Int) : AbstractRegisterLocation :=
  { l with m_type := .atAFAPlusOffset, m_location := .offset offset }

def AbstractRegisterLocation.SetIsAFAPlusOffset (l : AbstractRegisterLocation)
    (offset : Int) : AbstractRegisterLocation :=
  { l with m_type := .isAFAPlusOffset, m_location := .offset offset }

def AbstractRegisterLocation.SetInRegister (l : AbstractRegisterLocation)
    (reg_num : Nat) : AbstractRegisterLocation :=
  { l with m_type := .inOtherRegister, m_location := .reg_num reg_num }

/-- GetRegisterNumber checks m_type == inOtherRegister and then reads
m_location.reg_num, else returns LLDB_INVALID_REGNUM.  Through the public
API the inOtherRegister tag always has the reg_num member active (only
SetInRegister produces it); the catch-all covers the unreachable mismatch
with the same sentinel as the else branch. -/
def AbstractRegisterLocation.GetRegisterNumber (l : AbstractRegisterLocation) :
    Nat :=
  match l.m_type, l.m_location with
  | .inOtherRegister, .reg_num r => r
  | _, _ => LLDB_INVALID_REGNUM

def AbstractRegisterLocation.GetLocationType (l : AbstractRegisterLocation) :
    RestoreType :=
  l.m_type

/-- GetOffset switches on m_type: for the four CFA/AFA-offset tags it reads
m_location.offset, for every other tag it returns 0.  Through the public API
those four tags always have the offset member active (only the four offset
setters produce them); the catch-all covers the unreachable mismatch. -/
def AbstractRegisterLocation.GetOffset (l : AbstractRegisterLocation) : Int :=
  match l.m_type, l.m_location with
  | .atCFAPlusOffset, .offset v => v
  | .isCFAPlusOffset, .offset v => v
  | .atAFAPlusOffset, .offset v => v
  | .isAFAPlusOffset, .offset v => v
  | _, _ => 0

/-- GetDWARFExpr writes the opcode pointer and length through out-parameters;
modelled as returning the pair (opcodes, length), with (0, 0) standing for
(*opcodes = nullptr; len = 0) on any tag other than the two expression tags. -/
def AbstractRegisterLocation.GetDWARFExpr (l : AbstractRegisterLocation) :
    Nat × Nat :=
  match l.m_type, l.m_location with
  | .atDWARFExpression, .expr p n => (p, n)
  | .isDWARFExpression, .expr p n => (p, n)
  | _, _ => (0, 0)

/-- Modelled from the spec: the body of
AbstractRegisterLocation::SetAtDWARFExpression lives in UnwindPlan.cpp,
which is not part of the excerpt.  Spec 4.1: "mutators each set the tag and
payload atomically".  The union's length field is uint16_t (header), so the
uint32_t len argument is reduced mod 2^16 on storage. -/
def AbstractRegisterLocation.SetAtDWARFExpression (l : AbstractRegisterLocation)
    (opcodes : Nat) (len : Nat) : AbstractRegisterLocation :=
  { l with m_type := .atDWARFExpression, m_location := .expr opcodes (len % 65536) }

/-- Modelled from the spec: the body of
AbstractRegisterLocation::SetIsDWARFExpression lives in UnwindPlan.cpp,
which is not part of the excerpt.  Spec 4.1: "mutators each set the tag and
payload atomically".  The union's length field is uint16_t (header), so the
uint32_t len argument is reduced mod 2^16 on storage. -/
def AbstractRegisterLocation.SetIsDWARFExpression (l : AbstractRegisterLocation)
    (opcodes : Nat) (len : Nat) : AbstractRegisterLocation :=
  { l with m_type := .isDWARFExpression, m_location := .expr opcodes (len % 65536) }

/-- GetDWARFExpressionBytes returns the opcode pointer for the two expression
tags, else nullptr (modelled as address 0). -/
def AbstractRegisterLocation.GetDWARFExpressionBytes
    (l : AbstractRegisterLocation) : Nat :=
  match l.m_type, l.m_location with
  | .atDWARFExpression, .expr p _ => p
  | .isDWARFExpression, .expr p _ => p
  | _, _ => 0

/-- GetDWARFExpressionLength returns the length for the two expression tags,
else 0. -/
def AbstractRegisterLocation.GetDWARFExpressionLength
    (l : AbstractRegisterLocation) : Nat :=
  match l.m_type, l.m_location with
  | .atDWARFExpression, .expr _ n => n
  | .isDWARFExpression, .expr _ n => n
  | _, _ => 0

/-- UnwindPlan.h: enum FAValue::ValueType. -/
inductive ValueType where
  | unspecified
  | isRegisterPlusOffset
  | isRegisterDereferenced
  | isDWARFExpression
  | isRaSearch
  | isConstant
  deriving DecidableEq

/-- The anonymous union m_value of FAValue.  The reg member packs a uint32_t
reg_num together with an int32_t offset (the offset half is used only by
the isRegisterPlusOffset tag); expr is a borrowed pointer plus uint16_t
length; ra_search_offset is int32_t; constant is uint64_t.  Default
construction m_value() zero-initializes the union, activating the first
member (reg 0 0). -/
inductive FAValueUnion where
  | reg (reg_num : Nat) (offset : Int)
  | expr (opcodes : Nat) (length : Nat)
  | ra_search_offset (v : Int)
  | constant (v : Nat)
  deriving DecidableEq

/-- UnwindPlan.h: class UnwindPlan::Row::FAValue, a discriminant m_type plus
the union m_value. -/
structure FAValue where
  m_type : ValueType := .unspecified
  m_value : FAValueUnion := .reg 0 0
  deriving DecidableEq

/-- The default constructor FAValue() : m_value() {} with the in-class
initializer m_type = unspecified. -/
def FAValue.init : FAValue := {}

/-- SetUnspecified writes only m_type; the union keeps its previous member. -/
def FAValue.SetUnspecified (fa : FAValue) : FAValue :=
  { fa with m_type := .unspecified }

def FAValue.IsUnspecified (fa : FAValue) : Bool :=
  fa.m_type == .unspecified

def FAValue.SetRaSearch (fa : FAValue) (offset : Int) : FAValue :=
  { fa with m_type := .isRaSearch, m_value := .ra_search_offset offset }

def FAValue.IsRegisterPlusOffset (fa : FAValue) : Bool :=
  fa.m_type == .isRegisterPlusOffset

def FAValue.SetIsRegisterPlusOffset (fa : FAValue) (reg_num : Nat)
    (offset : Int) : FAValue :=
  { fa with m_type := .isRegisterPlusOffset, m_value := .reg reg_num offset }

def FAValue.IsRegisterDereferenced (fa : FAValue) : Bool :=
  fa.m_type == .isRegisterDereferenced

/-- SetIsRegisterDereferenced writes m_type and m_value.reg.reg_num only; the
offset half of the reg member keeps its previous bytes when the reg member
was active and is indeterminate otherwise.  No guarded accessor reads the
offset while m_type == isRegisterDereferenced, so the 0 placeholder in the
non-reg case is unobservable through the API. -/
def FAValue.SetIsRegisterDereferenced (fa : FAValue) (reg_num : Nat) : FAValue :=
  { fa with
    m_type := .isRegisterDereferenced
    m_value := (match fa.m_value with
      | .reg _ o => .reg reg_num o
      | _ => .reg reg_num 0) }

def FAValue.IsDWARFExpression (fa : FAValue) : Bool :=
  fa.m_type == .isDWARFExpression

/-- SetIsDWARFExpression (inline in the header) stores the uint32_t len into
the uint16_t length field, i.e. reduced mod 2^16. -/
def FAValue.SetIsDWARFExpression (fa : FAValue) (opcodes : Nat) (len : Nat) :
    FAValue :=
  { fa with m_type := .isDWARFExpression, m_value := .expr opcodes (len % 65536) }

def FAValue.IsConstant (fa : FAValue) : Bool :=
  fa.m_type == .isConstant

def FAValue.SetIsConstant (fa : FAValue) (constant : Nat) : FAValue :=
  { fa with m_type := .isConstant, m_value := .constant constant }

/-- FAValue::GetConstant returns m_value.constant with NO tag guard, exactly
like AbstractRegisterLocation::GetConstant; modelled the same way: the
constant member if active, else none (inactive-union-member read). -/
def FAValue.GetConstant (fa : FAValue) : Option Nat :=
  match fa.m_value with
  | .constant v => some v
  | _ => none

/-- GetRegisterNumber checks m_type for the two register-based tags and then
reads m_value.reg.reg_num, else returns LLDB_INVALID_REGNUM.  Through the
API those tags always have the reg member active; the catch-all covers the
unreachable mismatch with the same sentinel as the else branch. -/
def FAValue.GetRegisterNumber (fa : FAValue) : Nat :=
  match fa.m_type, fa.m_value with
  | .isRegisterDereferenced, .reg r _ => r
  | .isRegisterPlusOffset, .reg r _ => r
  | _, _ => LLDB_INVALID_REGNUM

def FAValue.GetValueType (fa : FAValue) : ValueType :=
  fa.m_type

/-- GetOffset switches on m_type: isRegisterPlusOffset reads
m_value.reg.offset, isRaSearch reads m_value.ra_search_offset, every other
tag returns 0.  Through the API those tags always have the matching member
active; the catch-alls cover the unreachable mismatches. -/
def FAValue.GetOffset (fa : FAValue) : Int :=
  match fa.m_type, fa.m_value with
  | .isRegisterPlusOffset, .reg _ o => o
  | .isRaSearch, .ra_search_offset v => v
  | _, _ => 0

/-- IncOffset adds delta to m_value.reg.offset only when
m_type == isRegisterPlusOffset, else it is a no-op (void return, no error
signalled).  The source offset is int32_t; the claims proved here do not
probe int32 overflow, so the addition is modelled on Int. -/
def FAValue.IncOffset (fa : FAValue) (delta : Int) : FAValue :=
  match fa.m_type, fa.m_value with
  | .isRegisterPlusOffset, .reg r o =>
    { fa with m_value := .reg r (o + delta) }
  | _, _ => fa

/-- SetOffset writes m_value.reg.offset only when
m_type == isRegisterPlusOffset, else it is a no-op (void return, no error
signalled). -/
def FAValue.SetOffset (fa : FAValue) (offset : Int) : FAValue :=
  match fa.m_type, fa.m_value with
  | .isRegisterPlusOffset, .reg r _ =>
    { fa with m_value := .reg r offset }
  | _, _ => fa

/-- GetDWARFExpr of FAValue, guarded by the single isDWARFExpression tag;
(0, 0) models (*opcodes = nullptr; len = 0). -/
def FAValue.GetDWARFExpr (fa : FAValue) : Nat × Nat :=
  match fa.m_type, fa.m_value with
  | .isDWARFExpression, .expr p n => (p, n)
  | _, _ => (0, 0)

def FAValue.GetDWARFExpressionBytes (fa : FAValue) : Nat :=
  match fa.m_type, fa.m_value with
  | .isDWARFExpression, .expr p _ => p
  | _, _ => 0

def FAValue.GetDWARFExpressionLength (fa : FAValue) : Nat :=
  match fa.m_type, fa.m_value with
  | .isDWARFExpression, .expr _ n => n
  | _, _ => 0

/-- Lookup in the ordered map std::map<uint32_t, ...>, modelled as an
association list sorted strictly by key. -/
def assocFind {A : Type} (k : Nat) : List (Nat × A) → Option A
  | [] => none
  | (k', v) :: rest => if k = k' then some v else assocFind k rest

/-- Insert-or-assign in the ordered map std::map<uint32_t, ...> (operator[]),
keeping the association list sorted strictly by key. -/
def assocInsert {A : Type} (k : Nat) (v : A) : List (Nat × A) → List (Nat × A)
  | [] => [(k, v)]
  | (k', v') :: rest =>
    if k < k' then (k, v) :: (k', v') :: rest
    else if k = k' then (k, v) :: rest
    else (k', v') :: assocInsert k v rest

/-- UnwindPlan.h: class UnwindPlan::Row.  The in-class member initializers
(m_offset = 0, default FAValues, empty map,
m_unspecified_registers_are_undefined = false) are in the header; Row() is
declared out-of-line and adds nothing beyond them. -/
structure Row where
  m_offset : Int := 0
  m_cfa_value : FAValue := {}
  m_afa_value : FAValue := {}
  m_register_locations : List (Nat × AbstractRegisterLocation) := []
  m_unspecified_registers_are_undefined : Bool := false
  deriving DecidableEq

/-- A Row with all members at their in-class initializer defaults. -/
def Row.init : Row := {}

def Row.GetOffset (row : Row) : Int := row.m_offset

def Row.SetOffset (row : Row) (offset : Int) : Row :=
  { row with m_offset := offset }

def Row.SlideOffset (row : Row) (offset : Int) : Row :=
  { row with m_offset := row.m_offset + offset }

def Row.GetCFAValue (row : Row) : FAValue := row.m_cfa_value

def Row.GetAFAValue (row : Row) : FAValue := row.m_afa_value

def Row.SetUnspecifiedRegistersAreUndefined (row : Row) (unspec_is_undef : Bool) :
    Row :=
  { row with m_unspecified_registers_are_undefined := unspec_is_undef }

def Row.GetUnspecifiedRegistersAreUndefined (row : Row) : Bool :=
  row.m_unspecified_registers_are_undefined

/-- Modelled from the spec: the body of Row::GetRegisterInfo lives in
UnwindPlan.cpp, which is not part of the excerpt.  Spec 4.3: "mapping
lookup; absence means this row makes no statement".  The bool return plus
out-parameter of the source is modelled as an Option. -/
def Row.GetRegisterInfo (row : Row) (reg_num : Nat) :
    Option AbstractRegisterLocation :=
  assocFind reg_num row.m_register_locations

/-- Modelled from the spec: the body of Row::SetRegisterInfo lives in
UnwindPlan.cpp, which is not part of the excerpt.  Spec 4.3:
"insert-or-replace, unconditional". -/
def Row.SetRegisterInfo (row : Row) (reg_num : Nat)
    (register_location : AbstractRegisterLocation) : Row :=
  { row with m_register_locations :=
      assocInsert reg_num register_location row.m_register_locations }

/-- Modelled from the spec: the body of Row::RemoveRegisterInfo lives in
UnwindPlan.cpp, which is not part of the excerpt.  Spec 4.3: "erase if
present, no error if absent". -/
def Row.RemoveRegisterInfo (row : Row) (reg_num : Nat) : Row :=
  { row with m_register_locations :=
      row.m_register_locations.filter (fun p => p.1 != reg_num) }

/-- Modelled from the spec: the bodies of the guarded
Row::SetRegisterLocationTo* setters live in UnwindPlan.cpp, which is not
part of the excerpt.  Spec 4.3: "each is a conditional compare-and-set.  If
no existing rule for regnum, always set and return success.  If a rule
exists, only overwrite when can_replace is true ...  Return false (no
mutation) when the guard forbids the overwrite."  The bool return plus
in-place mutation is modelled as a (success, updated row) pair. -/
def Row.SetRegisterLocationToAtCFAPlusOffset (row : Row) (reg_num : Nat)
    (offset : Int) (can_replace : Bool) : Bool × Row :=
  if row.GetRegisterInfo reg_num = none ∨ can_replace = true then
    (true, row.SetRegisterInfo reg_num
      (AbstractRegisterLocation.SetAtCFAPlusOffset {} offset))
  else (false, row)

/-- Modelled from the spec: see Row.SetRegisterLocationToAtCFAPlusOffset. -/
def Row.SetRegisterLocationToIsCFAPlusOffset (row : Row) (reg_num : Nat)
    (offset : Int) (can_replace : Bool) : Bool × Row :=
  if row.GetRegisterInfo reg_num = none ∨ can_replace = true then
    (true, row.SetRegisterInfo reg_num
      (AbstractRegisterLocation.SetIsCFAPlusOffset {} offset))
  else (false, row)

/-- Modelled from the spec: setter body in UnwindPlan.cpp, not in the
excerpt.  Spec 4.3: for the Undefined variant the overwrite of an existing
rule is allowed when can_replace is true, "additionally gated by
can_replace_only_if_unspecified, which restricts the overwrite to cases
where the existing rule is specifically Unspecified". -/
def Row.SetRegisterLocationToUndefined (row : Row) (reg_num : Nat)
    (can_replace : Bool) (can_replace_only_if_unspecified : Bool) : Bool × Row :=
  match row.GetRegisterInfo reg_num with
  | none =>
    (true, row.SetRegisterInfo reg_num (AbstractRegisterLocation.SetUndefined {}))
  | some existing =>
    if can_replace = true ∧
        (can_replace_only_if_unspecified = true → existing.IsUnspecified = true) then
      (true, row.SetRegisterInfo reg_num (AbstractRegisterLocation.SetUndefined {}))
    else (false, row)

/-- Modelled from the spec: see Row.SetRegisterLocationToAtCFAPlusOffset. -/
def Row.SetRegisterLocationToUnspecified (row : Row) (reg_num : Nat)
    (can_replace : Bool) : Bool × Row :=
  if row.GetRegisterInfo reg_num = none ∨ can_replace = true then
    (true, row.SetRegisterInfo reg_num
      (AbstractRegisterLocation.SetUnspecified {}))
  else (false, row)

/-- Modelled from the spec: see Row.SetRegisterLocationToAtCFAPlusOffset. -/
def Row.SetRegisterLocationToRegister (row : Row) (reg_num : Nat)
    (other_reg_num : Nat) (can_replace : Bool) : Bool × Row :=
  if row.GetRegisterInfo reg_num = none ∨ can_replace = true then
    (true, row.SetRegisterInfo reg_num
      (AbstractRegisterLocation.SetInRegister {} other_reg_num))
  else (false, row)

/-- Modelled from the spec: see Row.SetRegisterLocationToAtCFAPlusOffset.
The spec describes the whole SetRegisterLocationTo* family uniformly as a
conditional compare-and-set with the replace flag; the header names this
setter's flag must_replace, modelled with the family's uniform semantics. -/
def Row.SetRegisterLocationToSame (row : Row) (reg_num : Nat)
    (must_replace : Bool) : Bool × Row :=
  if row.GetRegisterInfo reg_num = none ∨ must_replace = true then
    (true, row.SetRegisterInfo reg_num (AbstractRegisterLocation.SetSame {}))
  else (false, row)

/-- Modelled from the spec: see Row.SetRegisterLocationToAtCFAPlusOffset. -/
def Row.SetRegisterLocationToIsDWARFExpression (row : Row) (reg_num : Nat)
    (opcodes : Nat) (len : Nat) (can_replace : Bool) : Bool × Row :=
  if row.GetRegisterInfo reg_num = none ∨ can_replace = true then
    (true, row.SetRegisterInfo reg_num
      (AbstractRegisterLocation.SetIsDWARFExpression {} opcodes len))
  else (false, row)

/-- Modelled from the spec: see Row.SetRegisterLocationToAtCFAPlusOffset. -/
def Row.SetRegisterLocationToIsConstant (row : Row) (reg_num : Nat)
    (constant : Nat) (can_replace : Bool) : Bool × Row :=
  if row.GetRegisterInfo reg_num = none ∨ can_replace = true then
    (true, row.SetRegisterInfo reg_num
      (AbstractRegisterLocation.SetIsConstant {} constant))
  else (false, row)

/-- lldb LazyBool: the tri-state used by the three provenance flags;
eLazyBoolCalculate is the to-be-computed default. -/
inductive LazyBool where
  | eLazyBoolCalculate
  | eLazyBoolNo
  | eLazyBoolYes
  deriving DecidableEq

/-- lldb RegisterKind: the register numbering schemes. -/
inductive RegisterKind where
  | eRegisterKindEHFrame
  | eRegisterKindDWARF
  | eRegisterKindGeneric
  | eRegisterKindProcessPlugin
  | eRegisterKindLLDB
  deriving DecidableEq

/-- An lldb AddressRange, reduced to base address and byte size; UnwindPlan
only stores and clears these. -/
structure AddressRange where
  base : Nat := 0
  byte_size : Nat := 0
  deriving DecidableEq

/-- UnwindPlan.h: class UnwindPlan.  ConstString m_source_name is modelled as
a String ("" when cleared). -/
structure UnwindPlan where
  m_row_list : List Row := []
  m_plan_valid_ranges : List AddressRange := []
  m_register_kind : RegisterKind
  m_return_addr_register : Nat := LLDB_INVALID_REGNUM
  m_source_name : String := ""
  m_plan_is_sourced_from_compiler : LazyBool := .eLazyBoolCalculate
  m_plan_is_valid_at_all_instruction_locations : LazyBool := .eLazyBoolCalculate
  m_plan_is_for_signal_trap : LazyBool := .eLazyBoolCalculate
  deriving DecidableEq

/-- The constructor UnwindPlan(lldb::RegisterKind reg_kind): empty row list
and valid ranges, return-address register LLDB_INVALID_REGNUM, empty source
name, all three provenance flags eLazyBoolCalculate. -/
def UnwindPlan.init (reg_kind : RegisterKind) : UnwindPlan :=
  { m_register_kind := reg_kind }

def UnwindPlan.GetRegisterKind (p : UnwindPlan) : RegisterKind :=
  p.m_register_kind

def UnwindPlan.SetRegisterKind (p : UnwindPlan) (kind : RegisterKind) :
    UnwindPlan :=
  { p with m_register_kind := kind }

def UnwindPlan.SetReturnAddressRegister (p : UnwindPlan) (regnum : Nat) :
    UnwindPlan :=
  { p with m_return_addr_register := regnum }

def UnwindPlan.GetReturnAddressRegister (p : UnwindPlan) : Nat :=
  p.m_return_addr_register

def UnwindPlan.GetRowCount (p : UnwindPlan) : Nat :=
  p.m_row_list.length

/-- UnwindPlan::Clear() (inline in the header): clears the row list and the
valid ranges, resets the register kind to eRegisterKindDWARF, clears the
source name, and resets the three provenance flags to eLazyBoolCalculate.
Note that it does NOT touch m_return_addr_register. -/
def UnwindPlan.Clear (p : UnwindPlan) : UnwindPlan :=
  { p with
    m_row_list := []
    m_plan_valid_ranges := []
    m_register_kind := .eRegisterKindDWARF
    m_source_name := ""
    m_plan_is_sourced_from_compiler := .eLazyBoolCalculate
    m_plan_is_valid_at_all_instruction_locations := .eLazyBoolCalculate
    m_plan_is_for_signal_trap := .eLazyBoolCalculate }

/-- Modelled from the spec: the body of UnwindPlan::AppendRow lives in
UnwindPlan.cpp, which is not part of the excerpt.  Spec 4.4: "adds at the
end; caller's responsibility to maintain non-decreasing code-offset
order". -/
def UnwindPlan.AppendRow (p : UnwindPlan) (row : Row) : UnwindPlan :=
  { p with m_row_list := p.m_row_list ++ [row] }

/-- Modelled from the spec: the body of UnwindPlan::GetLastRow lives in
UnwindPlan.cpp, which is not part of the excerpt.  Spec 4.4: positional
access to the last row; an empty plan yields an absent result. -/
def UnwindPlan.GetLastRow (p : UnwindPlan) : Option Row :=
  p.m_row_list.getLast?

/-- Modelled from the spec: the body of UnwindPlan::GetRowForFunctionOffset
lives in UnwindPlan.cpp, which is not part of the excerpt.  Spec 4.4:
"returns the row with the greatest code offset <= the given offset", an
upper-bound search over the row sequence sorted by code offset, i.e. the
last row of the prefix whose code offsets are <= the offset; "if offset is
absent/unknown ... return the last row in the sequence"; "returns none if
the plan has no rows". -/
def UnwindPlan.GetRowForFunctionOffset (p : UnwindPlan) (offset : Option Int) :
    Option Row :=
  match offset with
  | some o => (p.m_row_list.takeWhile (fun r => decide (r.m_offset ≤ o))).getLast?
  | none => p.m_row_list.getLast?

/-- Modelled from the spec: the body of UnwindPlan::InsertRow lives in
UnwindPlan.cpp, which is not part of the excerpt.  Spec 4.4: "inserts
maintaining sorted order by code offset; if a row at the same offset
exists, replaces it only when replace_existing is true, otherwise the
insert is a no-op (existing row wins)".  Helper on the bare row list. -/
def insertRowList (row : Row) (replace_existing : Bool) : List Row → List Row
  | [] => [row]
  | r :: rest =>
    if row.m_offset < r.m_offset then row :: r :: rest
    else if row.m_offset = r.m_offset then
      if replace_existing then row :: rest else r :: rest
    else r :: insertRowList row replace_existing rest

/-- Modelled from the spec: see insertRowList. -/
def UnwindPlan.InsertRow (p : UnwindPlan) (row : Row)
    (replace_existing : Bool) : UnwindPlan :=
  { p with m_row_list := insertRowList row replace_existing p.m_row_list }

theorem assocFind_assocInsert_self {A : Type} (k : Nat) (v : A)
    (m : List (Nat × A)) : assocFind k (assocInsert k v m) = some v := by
  induction m with
  | nil => simp [assocInsert, assocFind]
  | cons p rest ih =>
    obtain ⟨k', v'⟩ := p
    by_cases h1 : k < k'
    · simp [assocInsert, h1, assocFind]
    · by_cases h2 : k = k'
      · simp [assocInsert, h1, h2, assocFind]
      · simp [assocInsert, h1, h2, assocFind, ih]

theorem assocFind_assocInsert_ne {A : Type} (k k2 : Nat) (v : A)
    (m : List (Nat × A)) (h : k ≠ k2) :
    assocFind k (assocInsert k2 v m) = assocFind k m := by
  induction m with
  | nil => simp [assocInsert, assocFind, h]
  | cons p rest ih =>
    obtain ⟨k', v'⟩ := p
    by_cases h1 : k2 < k'
    · simp [assocInsert, h1, assocFind, h]
    · by_cases h2 : k2 = k'
      · subst h2
        simp [assocInsert, h1, assocFind, h]
      · simp [assocInsert, h1, h2, assocFind, ih]

theorem getRegisterInfo_foldl_of_not_mem
    (ps : List (Nat × AbstractRegisterLocation)) (r : Nat)
    (h : r ∉ ps.map Prod.fst) : ∀ row : Row,
    (ps.foldl (fun rw p => rw.SetRegisterInfo p.1 p.2) row).GetRegisterInfo r
      = row.GetRegisterInfo r := by
  induction ps with
  | nil => intro row; rfl
  | cons p rest ih =>
    intro row
    simp only [List.map_cons, List.mem_cons] at h
    push_neg at h
    obtain ⟨hne, hrest⟩ := h
    rw [List.foldl_cons, ih hrest]
    simp [Row.GetRegisterInfo, Row.SetRegisterInfo,
      assocFind_assocInsert_ne _ _ _ _ hne]

theorem getRegisterInfo_foldl_round_trip
    (pairs : List (Nat × AbstractRegisterLocation)) :
    ∀ (row : Row) (r : Nat) (loc : AbstractRegisterLocation),
      (pairs.map Prod.fst).Nodup → (r, loc) ∈ pairs →
      (pairs.foldl (fun rw p => rw.SetRegisterInfo p.1 p.2) row).GetRegisterInfo r
        = some loc := by
  induction pairs with
  | nil =>
    intro row r loc _ hmem
    cases hmem
  | cons p rest ih =>
    intro row r loc hnodup hmem
    rw [List.foldl_cons]
    simp only [List.map_cons, List.nodup_cons] at hnodup
    rcases List.mem_cons.mp hmem with heq | hmem2
    · have hp : p = (r, loc) := heq.symm
      subst hp
      have hr : r ∉ rest.map Prod.fst := by simpa using hnodup.1
      rw [getRegisterInfo_foldl_of_not_mem rest r hr]
      simp [Row.GetRegisterInfo, Row.SetRegisterInfo, assocFind_assocInsert_self]
    · exact ih (row.SetRegisterInfo p.1 p.2) r loc hnodup.2 hmem2

/-- Claim C5: setting N distinct register rules on a Row (via SetRegisterInfo)
and then reading each back via GetRegisterInfo yields exactly the tag and
payload that were set, for every count, every rule kind and every payload
(the witness exercises the boundary payloads offset 0, INT32_MIN, INT32_MAX
and constant 0, UINT64_MAX). -/
theorem c5_register_rule_round_trip
    (pairs : List (Nat × AbstractRegisterLocation))
    (hnodup : (pairs.map Prod.fst).Nodup)
    (r : Nat) (loc : AbstractRegisterLocation)
    (hmem : (r, loc) ∈ pairs) :
    (pairs.foldl (fun rw p => rw.SetRegisterInfo p.1 p.2) Row.init).GetRegisterInfo r
      = some loc :=
  getRegisterInfo_foldl_round_trip pairs Row.init r loc hnodup hmem

/-- Concrete register rules with boundary payloads for the C5 witness:
offset 0, INT32_MIN, INT32_MAX; constant 0 and UINT64_MAX; plus the
remaining rule kinds. -/
def c5pairs : List (Nat × AbstractRegisterLocation) :=
  [ (1, AbstractRegisterLocation.SetAtCFAPlusOffset {} 0),
    (2, AbstractRegisterLocation.SetIsCFAPlusOffset {} (-2147483648)),
    (3, AbstractRegisterLocation.SetAtAFAPlusOffset {} 2147483647),
    (4, AbstractRegisterLocation.SetIsAFAPlusOffset {} (-1)),
    (5, AbstractRegisterLocation.SetIsConstant {} 0),
    (6, AbstractRegisterLocation.SetIsConstant {} 18446744073709551615),
    (7, AbstractRegisterLocation.SetInRegister {} 31),
    (8, AbstractRegisterLocation.SetSame {}),
    (9, AbstractRegisterLocation.SetUndefined {}),
    (10, AbstractRegisterLocation.SetIsDWARFExpression {} 4096 17) ]

theorem c5_register_rule_round_trip_witness :
    (c5pairs.foldl (fun rw p => rw.SetRegisterInfo p.1 p.2) Row.init).GetRegisterInfo 6
      = some (AbstractRegisterLocation.SetIsConstant {} 18446744073709551615) :=
  c5_register_rule_round_trip c5pairs (by decide) 6
    (AbstractRegisterLocation.SetIsConstant {} 18446744073709551615) (by decide)

/-- Claim C6: AbstractRegisterLocation::GetOffset returns the stored offset
payload exactly when the active tag is one of atCFAPlusOffset,
isCFAPlusOffset, atAFAPlusOffset, isAFAPlusOffset (here: after storing via
any of the four offset setters), and returns 0 for every other tag. -/
theorem c6_get_offset_guard (l : AbstractRegisterLocation) (o : Int)
    (h : l.m_type ≠ RestoreType.atCFAPlusOffset
       ∧ l.m_type ≠ RestoreType.isCFAPlusOffset
       ∧ l.m_type ≠ RestoreType.atAFAPlusOffset
       ∧ l.m_type ≠ RestoreType.isAFAPlusOffset) :
    (l.SetAtCFAPlusOffset o).GetOffset = o
    ∧ (l.SetIsCFAPlusOffset o).GetOffset = o
    ∧ (l.SetAtAFAPlusOffset o).GetOffset = o
    ∧ (l.SetIsAFAPlusOffset o).GetOffset = o
    ∧ l.GetOffset = 0 := by
  obtain ⟨h1, h2, h3, h4⟩ := h
  refine ⟨rfl, rfl, rfl, rfl, ?_⟩
  cases l with
  | mk t u => cases t <;> cases u <;> simp_all [AbstractRegisterLocation.GetOffset]

theorem c6_get_offset_guard_witness :
    (AbstractRegisterLocation.init.SetAtCFAPlusOffset 5).GetOffset = 5
    ∧ (AbstractRegisterLocation.init.SetIsCFAPlusOffset 5).GetOffset = 5
    ∧ (AbstractRegisterLocation.init.SetAtAFAPlusOffset 5).GetOffset = 5
    ∧ (AbstractRegisterLocation.init.SetIsAFAPlusOffset 5).GetOffset = 5
    ∧ AbstractRegisterLocation.init.GetOffset = 0 :=
  c6_get_offset_guard AbstractRegisterLocation.init 5 (by decide)

/-- Claim C7: FAValue::IncOffset and FAValue::SetOffset modify the stored
offset only when the active variant is isRegisterPlusOffset; on every other
variant (the witness exercises isRaSearch) the call is a no-op leaving the
value entirely unchanged, and no error is signalled (the source functions
return void). -/
theorem c7_fa_offset_mutators (fa : FAValue) (delta v : Int) (r : Nat) (o : Int)
    (h : fa.m_type ≠ ValueType.isRegisterPlusOffset) :
    fa.IncOffset delta = fa
    ∧ fa.SetOffset v = fa
    ∧ ((fa.SetIsRegisterPlusOffset r o).IncOffset delta).GetOffset = o + delta
    ∧ ((fa.SetIsRegisterPlusOffset r o).SetOffset v).GetOffset = v := by
  refine ⟨?_, ?_, rfl, rfl⟩ <;>
  · cases fa with
    | mk t u => cases t <;> cases u <;> simp_all [FAValue.IncOffset, FAValue.SetOffset]

theorem c7_fa_offset_mutators_witness :
    (FAValue.SetRaSearch FAValue.init 9).IncOffset 3 = FAValue.SetRaSearch FAValue.init 9
    ∧ (FAValue.SetRaSearch FAValue.init 9).SetOffset 11 = FAValue.SetRaSearch FAValue.init 9
    ∧ (((FAValue.SetRaSearch FAValue.init 9).SetIsRegisterPlusOffset 2 4).IncOffset 3).GetOffset = 4 + 3
    ∧ (((FAValue.SetRaSearch FAValue.init 9).SetIsRegisterPlusOffset 2 4).SetOffset 11).GetOffset = 11 :=
  c7_fa_offset_mutators (FAValue.SetRaSearch FAValue.init 9) 3 11 2 4 (by decide)

/-- Claim C10: a default-constructed AbstractRegisterLocation and FAValue
have the unspecified tag active, with GetOffset 0, GetRegisterNumber the
invalid-register sentinel, and null/zero expression accessors; a freshly
constructed Row has code offset 0, unspecified CFA and AFA values, an empty
register mapping, and the unspecified-registers-are-undefined flag false. -/
theorem c10_default_construction :
    AbstractRegisterLocation.init.IsUnspecified = true
    ∧ AbstractRegisterLocation.init.GetOffset = 0
    ∧ AbstractRegisterLocation.init.GetRegisterNumber = LLDB_INVALID_REGNUM
    ∧ AbstractRegisterLocation.init.GetDWARFExpr = (0, 0)
    ∧ AbstractRegisterLocation.init.GetDWARFExpressionBytes = 0
    ∧ AbstractRegisterLocation.init.GetDWARFExpressionLength = 0
    ∧ FAValue.init.IsUnspecified = true
    ∧ FAValue.init.GetOffset = 0
    ∧ FAValue.init.GetRegisterNumber = LLDB_INVALID_REGNUM
    ∧ FAValue.init.GetDWARFExpr = (0, 0)
    ∧ FAValue.init.GetDWARFExpressionBytes = 0
    ∧ FAValue.init.GetDWARFExpressionLength = 0
    ∧ Row.init.m_offset = 0
    ∧ Row.init.m_cfa_value.IsUnspecified = true
    ∧ Row.init.m_afa_value.IsUnspecified = true
    ∧ Row.init.m_register_locations = []
    ∧ Row.init.m_unspecified_registers_are_undefined = false := by
  decide

/-- Claim C8, counterexample: after Clear() the plan is NOT equivalent to a
freshly constructed empty plan, because Clear() (UnwindPlan.h lines
531-539) never touches m_return_addr_register: a plan whose return-address
register was set to 5 keeps it through Clear(), while a fresh plan has
LLDB_INVALID_REGNUM there. -/
theorem c8_clear_counterexample :
    UnwindPlan.Clear
        ((UnwindPlan.init RegisterKind.eRegisterKindDWARF).SetReturnAddressRegister 5)
      ≠ UnwindPlan.init RegisterKind.eRegisterKindDWARF
    ∧ (UnwindPlan.Clear
        ((UnwindPlan.init RegisterKind.eRegisterKindDWARF).SetReturnAddressRegister 5)).m_return_addr_register
      = 5 := by
  decide

/-- Claim C8 as amended: Clear() empties the row list, the valid-address
ranges and the source name, returns the three tri-state provenance flags to
the to-be-computed default, and resets the register kind to the fixed
default numbering scheme (DWARF), not to an unset state; the return-address
register, however, is left unchanged, so the result is not fully equivalent
to a freshly constructed plan. -/
theorem c8_clear_amended (p : UnwindPlan) :
    (p.Clear).m_row_list = []
    ∧ (p.Clear).m_plan_valid_ranges = []
    ∧ (p.Clear).m_source_name = ""
    ∧ (p.Clear).m_register_kind = RegisterKind.eRegisterKindDWARF
    ∧ (p.Clear).m_plan_is_sourced_from_compiler = LazyBool.eLazyBoolCalculate
    ∧ (p.Clear).m_plan_is_valid_at_all_instruction_locations = LazyBool.eLazyBoolCalculate
    ∧ (p.Clear).m_plan_is_for_signal_trap = LazyBool.eLazyBoolCalculate
    ∧ (p.Clear).m_return_addr_register = p.m_return_addr_register := by
  simp [UnwindPlan.Clear]

/-- Claim C9, counterexample: GetConstant is NOT a guarded accessor with a
defined permissive fallback.  The header (UnwindPlan.h line 116) returns
m_location.constant_value with no tag check, so on a rule whose tag is not
isConstant it simply reads the union: after SetIsConstant(7) followed by
SetSame() (which writes only m_type), the rule is a Same rule, yet
GetConstant returns the stale payload 7 -- not a null pointer, zero length,
zero offset or invalid-register sentinel as the claim requires. -/
theorem c9_get_constant_counterexample :
    ((AbstractRegisterLocation.SetIsConstant {} 7).SetSame).IsSame = true
    ∧ ((AbstractRegisterLocation.SetIsConstant {} 7).SetSame).IsConstant = false
    ∧ ((AbstractRegisterLocation.SetIsConstant {} 7).SetSame).GetConstant = some 7 := by
  decide

/-- Claim C9 as amended: each tag-guarded payload accessor yields its defined
permissive fallback on ANY rule whose tag does not match that accessor --
GetDWARFExpr, GetDWARFExpressionBytes, GetDWARFExpressionLength on a
non-expression rule (null pointer, zero length), GetRegisterNumber on a
rule that is not register-based (the invalid-register sentinel), GetOffset
on a non-offset rule (zero offset) -- for both AbstractRegisterLocation and
FAValue, each accessor under only its own mismatch hypothesis (e.g.
GetOffset on an inOtherRegister rule, GetRegisterNumber on an offset rule,
FAValue::GetDWARFExpr on an isRaSearch value); GetConstant, however, is
excluded: it reads the union's constant_value member without any tag
guard, so on a non-constant rule it returns whatever the union holds
instead of a fallback. -/
theorem c9_guarded_accessor_fallbacks (l : AbstractRegisterLocation)
    (fa : FAValue) :
    (l.m_type ≠ RestoreType.atDWARFExpression →
      l.m_type ≠ RestoreType.isDWARFExpression →
        l.GetDWARFExpr = (0, 0)
        ∧ l.GetDWARFExpressionBytes = 0
        ∧ l.GetDWARFExpressionLength = 0)
    ∧ (l.m_type ≠ RestoreType.inOtherRegister →
        l.GetRegisterNumber = LLDB_INVALID_REGNUM)
    ∧ (l.m_type ≠ RestoreType.atCFAPlusOffset →
        l.m_type ≠ RestoreType.isCFAPlusOffset →
        l.m_type ≠ RestoreType.atAFAPlusOffset →
        l.m_type ≠ RestoreType.isAFAPlusOffset →
        l.GetOffset = 0)
    ∧ (fa.m_type ≠ ValueType.isDWARFExpression →
        fa.GetDWARFExpr = (0, 0)
        ∧ fa.GetDWARFExpressionBytes = 0
        ∧ fa.GetDWARFExpressionLength = 0)
    ∧ (fa.m_type ≠ ValueType.isRegisterPlusOffset →
        fa.m_type ≠ ValueType.isRegisterDereferenced →
        fa.GetRegisterNumber = LLDB_INVALID_REGNUM)
    ∧ (fa.m_type ≠ ValueType.isRegisterPlusOffset →
        fa.m_type ≠ ValueType.isRaSearch →
        fa.GetOffset = 0) := by
  refine ⟨?_, ?_, ?_, ?_, ?_, ?_⟩
  · intro h1 h2
    cases l with
    | mk t u =>
      cases t <;> cases u <;>
        simp_all [AbstractRegisterLocation.GetDWARFExpr,
          AbstractRegisterLocation.GetDWARFExpressionBytes,
          AbstractRegisterLocation.GetDWARFExpressionLength]
  · intro h
    cases l with
    | mk t u =>
      cases t <;> cases u <;>
        simp_all [AbstractRegisterLocation.GetRegisterNumber]
  · intro h1 h2 h3 h4
    cases l with
    | mk t u =>
      cases t <;> cases u <;> simp_all [AbstractRegisterLocation.GetOffset]
  · intro h
    cases fa with
    | mk t u =>
      cases t <;> cases u <;>
        simp_all [FAValue.GetDWARFExpr, FAValue.GetDWARFExpressionBytes,
          FAValue.GetDWARFExpressionLength]
  · intro h1 h2
    cases fa with
    | mk t u =>
      cases t <;> cases u <;> simp_all [FAValue.GetRegisterNumber]
  · intro h1 h2
    cases fa with
    | mk t u =>
      cases t <;> cases u <;> simp_all [FAValue.GetOffset]

theorem c9_guarded_accessor_fallbacks_witness :
    (AbstractRegisterLocation.SetInRegister {} 5).GetOffset = 0
    ∧ (AbstractRegisterLocation.SetAtCFAPlusOffset {} 3).GetRegisterNumber
        = LLDB_INVALID_REGNUM
    ∧ (AbstractRegisterLocation.SetInRegister {} 5).GetDWARFExpr = (0, 0)
    ∧ (FAValue.SetRaSearch {} 9).GetDWARFExpr = (0, 0)
    ∧ (FAValue.SetRaSearch {} 9).GetRegisterNumber = LLDB_INVALID_REGNUM
    ∧ (FAValue.SetIsConstant {} 3).GetOffset = 0 :=
  ⟨(c9_guarded_accessor_fallbacks (AbstractRegisterLocation.SetInRegister {} 5)
      (FAValue.SetRaSearch {} 9)).2.2.1 (by decide) (by decide) (by decide)
      (by decide),
   (c9_guarded_accessor_fallbacks (AbstractRegisterLocation.SetAtCFAPlusOffset {} 3)
      (FAValue.SetRaSearch {} 9)).2.1 (by decide),
   ((c9_guarded_accessor_fallbacks (AbstractRegisterLocation.SetInRegister {} 5)
      (FAValue.SetRaSearch {} 9)).1 (by decide) (by decide)).1,
   ((c9_guarded_accessor_fallbacks (AbstractRegisterLocation.SetInRegister {} 5)
      (FAValue.SetRaSearch {} 9)).2.2.2.1 (by decide)).1,
   (c9_guarded_accessor_fallbacks (AbstractRegisterLocation.SetInRegister {} 5)
      (FAValue.SetRaSearch {} 9)).2.2.2.2.1 (by decide) (by decide),
   (c9_guarded_accessor_fallbacks (AbstractRegisterLocation.SetInRegister {} 5)
      (FAValue.SetIsConstant {} 3)).2.2.2.2.2 (by decide) (by decide)⟩

/-- Claim C3: for every guarded Row setter SetRegisterLocationTo{AtCFAPlusOffset,
IsCFAPlusOffset, Undefined, Unspecified, Register, Same, IsDWARFExpression,
IsConstant}: if the row has no existing rule for the register the call
always sets the rule and returns true (for any value of the replace flags);
if a rule exists it overwrites it and returns true only when the replace
flag permits -- for the Undefined variant additionally gated by
can_replace_only_if_unspecified, which restricts the overwrite to an
existing rule that is specifically Unspecified -- and in every other case
it returns false and performs no mutation of the row. -/
theorem c3_guarded_setters (row : Row) (reg other : Nat) (offset : Int)
    (opcodes len constant : Nat) (flag gate : Bool) :
    (row.GetRegisterInfo reg = none →
        row.SetRegisterLocationToAtCFAPlusOffset reg offset flag
          = (true, row.SetRegisterInfo reg
              (AbstractRegisterLocation.SetAtCFAPlusOffset {} offset))
      ∧ row.SetRegisterLocationToIsCFAPlusOffset reg offset flag
          = (true, row.SetRegisterInfo reg
              (AbstractRegisterLocation.SetIsCFAPlusOffset {} offset))
      ∧ row.SetRegisterLocationToUndefined reg flag gate
          = (true, row.SetRegisterInfo reg
              (AbstractRegisterLocation.SetUndefined {}))
      ∧ row.SetRegisterLocationToUnspecified reg flag
          = (true, row.SetRegisterInfo reg
              (AbstractRegisterLocation.SetUnspecified {}))
      ∧ row.SetRegisterLocationToRegister reg other flag
          = (true, row.SetRegisterInfo reg
              (AbstractRegisterLocation.SetInRegister {} other))
      ∧ row.SetRegisterLocationToSame reg flag
          = (true, row.SetRegisterInfo reg (AbstractRegisterLocation.SetSame {}))
      ∧ row.SetRegisterLocationToIsDWARFExpression reg opcodes len flag
          = (true, row.SetRegisterInfo reg
              (AbstractRegisterLocation.SetIsDWARFExpression {} opcodes len))
      ∧ row.SetRegisterLocationToIsConstant reg constant flag
          = (true, row.SetRegisterInfo reg
              (AbstractRegisterLocation.SetIsConstant {} constant)))
    ∧ (∀ old, row.GetRegisterInfo reg = some old →
        (row.SetRegisterLocationToAtCFAPlusOffset reg offset true
          = (true, row.SetRegisterInfo reg
              (AbstractRegisterLocation.SetAtCFAPlusOffset {} offset))
        ∧ row.SetRegisterLocationToIsCFAPlusOffset reg offset true
          = (true, row.SetRegisterInfo reg
              (AbstractRegisterLocation.SetIsCFAPlusOffset {} offset))
        ∧ row.SetRegisterLocationToUnspecified reg true
          = (true, row.SetRegisterInfo reg
              (AbstractRegisterLocation.SetUnspecified {}))
        ∧ row.SetRegisterLocationToRegister reg other true
          = (true, row.SetRegisterInfo reg
              (AbstractRegisterLocation.SetInRegister {} other))
        ∧ row.SetRegisterLocationToSame reg true
          = (true, row.SetRegisterInfo reg (AbstractRegisterLocation.SetSame {}))
        ∧ row.SetRegisterLocationToIsDWARFExpression reg opcodes len true
          = (true, row.SetRegisterInfo reg
              (AbstractRegisterLocation.SetIsDWARFExpression {} opcodes len))
        ∧ row.SetRegisterLocationToIsConstant reg constant true
          = (true, row.SetRegisterInfo reg
              (AbstractRegisterLocation.SetIsConstant {} constant)))
      ∧ (row.SetRegisterLocationToAtCFAPlusOffset reg offset false = (false, row)
        ∧ row.SetRegisterLocationToIsCFAPlusOffset reg offset false = (false, row)
        ∧ row.SetRegisterLocationToUnspecified reg false = (false, row)
        ∧ row.SetRegisterLocationToRegister reg other false = (false, row)
        ∧ row.SetRegisterLocationToSame reg false = (false, row)
        ∧ row.SetRegisterLocationToIsDWARFExpression reg opcodes len false = (false, row)
        ∧ row.SetRegisterLocationToIsConstant reg constant false = (false, row))
      ∧ row.SetRegisterLocationToUndefined reg true false
          = (true, row.SetRegisterInfo reg (AbstractRegisterLocation.SetUndefined {}))
      ∧ (old.IsUnspecified = true →
          row.SetRegisterLocationToUndefined reg true true
            = (true, row.SetRegisterInfo reg
                (AbstractRegisterLocation.SetUndefined {})))
      ∧ (old.IsUnspecified = false →
          row.SetRegisterLocationToUndefined reg true true = (false, row))
      ∧ row.SetRegisterLocationToUndefined reg false gate = (false, row)) := by
  constructor
  · intro h
    refine ⟨?_, ?_, ?_, ?_, ?_, ?_, ?_, ?_⟩ <;>
      simp [Row.SetRegisterLocationToAtCFAPlusOffset,
        Row.SetRegisterLocationToIsCFAPlusOffset,
        Row.SetRegisterLocationToUndefined,
        Row.SetRegisterLocationToUnspecified,
        Row.SetRegisterLocationToRegister,
        Row.SetRegisterLocationToSame,
        Row.SetRegisterLocationToIsDWARFExpression,
        Row.SetRegisterLocationToIsConstant, h]
  · intro old h
    refine ⟨⟨?_, ?_, ?_, ?_, ?_, ?_, ?_⟩, ⟨?_, ?_, ?_, ?_, ?_, ?_, ?_⟩,
        ?_, fun hu => ?_, fun hu => ?_, ?_⟩ <;>
      simp [Row.SetRegisterLocationToAtCFAPlusOffset,
        Row.SetRegisterLocationToIsCFAPlusOffset,
        Row.SetRegisterLocationToUndefined,
        Row.SetRegisterLocationToUnspecified,
        Row.SetRegisterLocationToRegister,
        Row.SetRegisterLocationToSame,
        Row.SetRegisterLocationToIsDWARFExpression,
        Row.SetRegisterLocationToIsConstant, h] <;>
      simp [hu]

theorem c3_guarded_setters_witness :
    Row.SetRegisterLocationToAtCFAPlusOffset Row.init 1 8 false
      = (true, Row.SetRegisterInfo Row.init 1
          (AbstractRegisterLocation.SetAtCFAPlusOffset {} 8))
    ∧ (Row.SetRegisterInfo Row.init 1
        (AbstractRegisterLocation.SetSame {})).SetRegisterLocationToIsConstant 1 5 false
      = (false, Row.SetRegisterInfo Row.init 1 (AbstractRegisterLocation.SetSame {})) :=
  ⟨((c3_guarded_setters Row.init 1 2 8 3 4 5 false false).1 (by decide)).1,
   (((c3_guarded_setters
        (Row.SetRegisterInfo Row.init 1 (AbstractRegisterLocation.SetSame {}))
        1 2 8 3 4 5 false false).2
      (AbstractRegisterLocation.SetSame {}) (by decide)).2.1).2.2.2.2.2.2⟩

/-- Claim C4: on a Row with no prior rule for register r,
SetRegisterLocationToSame(r, must_replace = false) sets r's rule to Same and
succeeds; calling any SetRegisterLocationTo* setter of a different target
type for r afterwards with its replace flag false leaves the Same rule
unchanged and returns false. -/
theorem c4_same_then_other_guarded (row : Row) (r other : Nat) (offset : Int)
    (opcodes len constant : Nat) (gate : Bool)
    (h : row.GetRegisterInfo r = none) :
    (row.SetRegisterLocationToSame r false).1 = true
    ∧ (row.SetRegisterLocationToSame r false).2.GetRegisterInfo r
        = some (AbstractRegisterLocation.SetSame {})
    ∧ (row.SetRegisterLocationToSame r false).2.SetRegisterLocationToAtCFAPlusOffset r offset false
        = (false, (row.SetRegisterLocationToSame r false).2)
    ∧ (row.SetRegisterLocationToSame r false).2.SetRegisterLocationToIsCFAPlusOffset r offset false
        = (false, (row.SetRegisterLocationToSame r false).2)
    ∧ (row.SetRegisterLocationToSame r false).2.SetRegisterLocationToUndefined r false gate
        = (false, (row.SetRegisterLocationToSame r false).2)
    ∧ (row.SetRegisterLocationToSame r false).2.SetRegisterLocationToUnspecified r false
        = (false, (row.SetRegisterLocationToSame r false).2)
    ∧ (row.SetRegisterLocationToSame r false).2.SetRegisterLocationToRegister r other false
        = (false, (row.SetRegisterLocationToSame r false).2)
    ∧ (row.SetRegisterLocationToSame r false).2.SetRegisterLocationToIsDWARFExpression r opcodes len false
        = (false, (row.SetRegisterLocationToSame r false).2)
    ∧ (row.SetRegisterLocationToSame r false).2.SetRegisterLocationToIsConstant r constant false
        = (false, (row.SetRegisterLocationToSame r false).2) := by
  have h1 : row.SetRegisterLocationToSame r false
      = (true, row.SetRegisterInfo r (AbstractRegisterLocation.SetSame {})) := by
    simp [Row.SetRegisterLocationToSame, h]
  have h2 : (row.SetRegisterLocationToSame r false).2.GetRegisterInfo r
      = some (AbstractRegisterLocation.SetSame {}) := by
    rw [h1]
    simp [Row.GetRegisterInfo, Row.SetRegisterInfo, assocFind_assocInsert_self]
  refine ⟨by rw [h1], h2, ?_, ?_, ?_, ?_, ?_, ?_, ?_⟩ <;>
    simp [Row.SetRegisterLocationToAtCFAPlusOffset,
      Row.SetRegisterLocationToIsCFAPlusOffset,
      Row.SetRegisterLocationToUndefined,
      Row.SetRegisterLocationToUnspecified,
      Row.SetRegisterLocationToRegister,
      Row.SetRegisterLocationToIsDWARFExpression,
      Row.SetRegisterLocationToIsConstant, h2]

theorem c4_same_then_other_guarded_witness :
    (Row.init.SetRegisterLocationToSame 1 false).2.SetRegisterLocationToIsConstant 1 5 false
      = (false, (Row.init.SetRegisterLocationToSame 1 false).2) :=
  (c4_same_then_other_guarded Row.init 1 2 8 3 4 5 false (by decide)).2.2.2.2.2.2.2.2

theorem takeWhile_getLast_greatest (o : Int) (rs : List Row)
    (hs : rs.Pairwise (fun a b => a.m_offset ≤ b.m_offset))
    (hex : ∃ r ∈ rs, r.m_offset ≤ o) :
    ∃ r, (rs.takeWhile (fun x => decide (x.m_offset ≤ o))).getLast? = some r
      ∧ r ∈ rs ∧ r.m_offset ≤ o
      ∧ ∀ q ∈ rs, q.m_offset ≤ o → q.m_offset ≤ r.m_offset := by
  induction rs with
  | nil => simp at hex
  | cons a tl ih =>
    rw [List.pairwise_cons] at hs
    obtain ⟨ha, htl⟩ := hs
    by_cases hao : a.m_offset ≤ o
    · rw [List.takeWhile_cons_of_pos (by simpa using hao)]
      by_cases hex2 : ∃ r ∈ tl, r.m_offset ≤ o
      · obtain ⟨r, hlast, hmem, hro, hmax⟩ := ih htl hex2
        refine ⟨r, ?_, List.mem_cons_of_mem a hmem, hro, ?_⟩
        · cases hl : tl.takeWhile (fun x => decide (x.m_offset ≤ o)) with
          | nil =>
            rw [hl] at hlast
            simp at hlast
          | cons b l2 =>
            rw [hl] at hlast
            rw [List.getLast?_cons_cons]
            exact hlast
        · intro q hq hqo
          rcases List.mem_cons.mp hq with rfl | hq2
          · exact ha r hmem
          · exact hmax q hq2 hqo
      · have htw : tl.takeWhile (fun x => decide (x.m_offset ≤ o)) = [] := by
          cases tl with
          | nil => rfl
          | cons b l2 =>
            have hb : ¬ b.m_offset ≤ o := fun hb2 => hex2 ⟨b, List.mem_cons_self b l2, hb2⟩
            rw [List.takeWhile_cons_of_neg (by simpa using hb)]
        rw [htw]
        refine ⟨a, by simp, List.mem_cons_self a tl, hao, ?_⟩
        intro q hq hqo
        rcases List.mem_cons.mp hq with rfl | hq2
        · exact le_refl _
        · exact absurd ⟨q, hq2, hqo⟩ hex2
    · exfalso
      obtain ⟨r, hr, hro⟩ := hex
      rcases List.mem_cons.mp hr with rfl | hr2
      · exact hao hro
      · exact hao (le_trans (ha r hr2) hro)

theorem foldl_appendRow_row_list (rs : List Row) :
    ∀ p : UnwindPlan, (rs.foldl UnwindPlan.AppendRow p).m_row_list = p.m_row_list ++ rs := by
  induction rs with
  | nil => intro p; simp
  | cons a tl ih =>
    intro p
    rw [List.foldl_cons, ih]
    simp [UnwindPlan.AppendRow]

/-- Claim C1: for every UnwindPlan whose rows were added by AppendRow with
non-decreasing code offsets, GetRowForFunctionOffset(some o) returns the
row with the greatest code offset <= o, for every o at which such a row
exists (including values between and beyond row offsets);
GetRowForFunctionOffset(none) equals GetLastRow(), and when the plan is
non-empty both are exactly the last row; when the plan has no rows the
result is absent for every argument. -/
theorem c1_get_row_for_function_offset (kind : RegisterKind) (rs : List Row)
    (hs : rs.Pairwise (fun a b => a.m_offset ≤ b.m_offset))
    (plan : UnwindPlan)
    (hplan : plan = rs.foldl UnwindPlan.AppendRow (UnwindPlan.init kind)) :
    (∀ o : Int, (∃ r ∈ rs, r.m_offset ≤ o) →
        ∃ r, plan.GetRowForFunctionOffset (some o) = some r ∧ r ∈ rs
          ∧ r.m_offset ≤ o
          ∧ ∀ q ∈ rs, q.m_offset ≤ o → q.m_offset ≤ r.m_offset)
    ∧ plan.GetRowForFunctionOffset none = plan.GetLastRow
    ∧ (rs ≠ [] → ∃ r, plan.GetRowForFunctionOffset none = some r
        ∧ plan.GetLastRow = some r)
    ∧ (rs = [] → ∀ oo : Option Int, plan.GetRowForFunctionOffset oo = none) := by
  have hrows : plan.m_row_list = rs := by
    rw [hplan, foldl_appendRow_row_list]
    rfl
  refine ⟨?_, rfl, ?_, ?_⟩
  · intro o hex
    have h := takeWhile_getLast_greatest o rs hs hex
    simpa [UnwindPlan.GetRowForFunctionOffset, hrows] using h
  · intro hne
    have hsome : plan.m_row_list ≠ [] := by
      rw [hrows]
      exact hne
    obtain ⟨r, hr⟩ := Option.isSome_iff_exists.mp (List.getLast?_isSome.mpr hsome)
    exact ⟨r, hr, hr⟩
  · intro hnil oo
    have : plan.m_row_list = [] := by
      rw [hrows, hnil]
    cases oo <;> simp [UnwindPlan.GetRowForFunctionOffset, this]

def c1row0 : Row := { m_offset := 0 }

def c1row4 : Row := { m_offset := 4 }

def c1row10 : Row := { m_offset := 10 }

def c1plan : UnwindPlan :=
  List.foldl UnwindPlan.AppendRow (UnwindPlan.init RegisterKind.eRegisterKindDWARF)
    [c1row0, c1row4, c1row10]

theorem c1_get_row_for_function_offset_witness :
    ∃ r, c1plan.GetRowForFunctionOffset (some 7) = some r
      ∧ r ∈ [c1row0, c1row4, c1row10] ∧ r.m_offset ≤ 7
      ∧ ∀ q ∈ [c1row0, c1row4, c1row10], q.m_offset ≤ 7 → q.m_offset ≤ r.m_offset :=
  (c1_get_row_for_function_offset RegisterKind.eRegisterKindDWARF
      [c1row0, c1row4, c1row10] (by decide) c1plan rfl).1 7
    ⟨c1row4, by decide, by decide⟩

theorem mem_insertRowList (row : Row) (b : Bool) (l : List Row) :
    ∀ q ∈ insertRowList row b l, q = row ∨ q ∈ l := by
  induction l with
  | nil =>
    intro q hq
    simp [insertRowList] at hq
    exact Or.inl hq
  | cons r rest ih =>
    intro q hq
    by_cases h1 : row.m_offset < r.m_offset
    · simp only [insertRowList, if_pos h1] at hq
      rcases List.mem_cons.mp hq with rfl | hq2
      · exact Or.inl rfl
      · exact Or.inr hq2
    · by_cases h2 : row.m_offset = r.m_offset
      · simp only [insertRowList, if_neg h1, if_pos h2] at hq
        cases b with
        | true =>
          rw [if_pos rfl] at hq
          rcases List.mem_cons.mp hq with rfl | hq2
          · exact Or.inl rfl
          · exact Or.inr (List.mem_cons_of_mem r hq2)
        | false =>
          rw [if_neg (by decide)] at hq
          exact Or.inr hq
      · simp only [insertRowList, if_neg h1, if_neg h2] at hq
        rcases List.mem_cons.mp hq with rfl | hq2
        · exact Or.inr (List.mem_cons_self q rest)
        · rcases ih q hq2 with h | h
          · exact Or.inl h
          · exact Or.inr (List.mem_cons_of_mem r h)

theorem pairwise_le_insertRowList (row : Row) (b : Bool) (l : List Row)
    (h : l.Pairwise (fun x y => x.m_offset ≤ y.m_offset)) :
    (insertRowList row b l).Pairwise (fun x y => x.m_offset ≤ y.m_offset) := by
  induction l with
  | nil => simp [insertRowList]
  | cons r rest ih =>
    rw [List.pairwise_cons] at h
    obtain ⟨hr, hrest⟩ := h
    by_cases h1 : row.m_offset < r.m_offset
    · simp only [insertRowList, if_pos h1]
      rw [List.pairwise_cons]
      refine ⟨?_, List.pairwise_cons.mpr ⟨hr, hrest⟩⟩
      intro q hq
      rcases List.mem_cons.mp hq with rfl | hq2
      · exact le_of_lt h1
      · exact le_trans (le_of_lt h1) (hr q hq2)
    · by_cases h2 : row.m_offset = r.m_offset
      · simp only [insertRowList, if_neg h1, if_pos h2]
        cases b with
        | true =>
          rw [if_pos rfl]
          rw [List.pairwise_cons]
          exact ⟨fun q hq => h2 ▸ hr q hq, hrest⟩
        | false =>
          rw [if_neg (by decide)]
          exact List.pairwise_cons.mpr ⟨hr, hrest⟩
      · simp only [insertRowList, if_neg h1, if_neg h2]
        rw [List.pairwise_cons]
        refine ⟨?_, ih hrest⟩
        intro q hq
        rcases mem_insertRowList row b rest q hq with rfl | hq2
        · exact not_lt.mp h1
        · exact hr q hq2

theorem insertRowList_existing_no_replace (row : Row) (l : List Row)
    (hs : l.Pairwise (fun x y => x.m_offset ≤ y.m_offset))
    (hex : ∃ r ∈ l, r.m_offset = row.m_offset) :
    insertRowList row false l = l := by
  induction l with
  | nil => simp at hex
  | cons r rest ih =>
    rw [List.pairwise_cons] at hs
    obtain ⟨hr, hrest⟩ := hs
    by_cases h1 : row.m_offset < r.m_offset
    · exfalso
      obtain ⟨x, hx, hxo⟩ := hex
      rcases List.mem_cons.mp hx with rfl | hx2
      · rw [hxo] at h1
        exact lt_irrefl _ h1
      · have hle := hr x hx2
        rw [hxo] at hle
        exact absurd h1 (not_lt.mpr hle)
    · by_cases h2 : row.m_offset = r.m_offset
      · simp [insertRowList, h1, h2]
      · simp only [insertRowList, if_neg h1, if_neg h2]
        congr 1
        apply ih hrest
        obtain ⟨x, hx, hxo⟩ := hex
        rcases List.mem_cons.mp hx with rfl | hx2
        · exact absurd hxo.symm h2
        · exact ⟨x, hx2, hxo⟩

theorem map_replace_no_hit (row : Row) (l : List Row)
    (h : ∀ x ∈ l, x.m_offset ≠ row.m_offset) :
    l.map (fun x => if x.m_offset = row.m_offset then row else x) = l := by
  induction l with
  | nil => rfl
  | cons r rest ih =>
    rw [List.map_cons, if_neg (h r (List.mem_cons_self r rest)),
      ih (fun x hx => h x (List.mem_cons_of_mem r hx))]

theorem insertRowList_existing_replace (row : Row) (l : List Row)
    (hs : l.Pairwise (fun x y => x.m_offset < y.m_offset))
    (hex : ∃ r ∈ l, r.m_offset = row.m_offset) :
    insertRowList row true l
      = l.map (fun x => if x.m_offset = row.m_offset then row else x) := by
  induction l with
  | nil => simp at hex
  | cons r rest ih =>
    rw [List.pairwise_cons] at hs
    obtain ⟨hr, hrest⟩ := hs
    by_cases h1 : row.m_offset < r.m_offset
    · exfalso
      obtain ⟨x, hx, hxo⟩ := hex
      rcases List.mem_cons.mp hx with rfl | hx2
      · rw [hxo] at h1
        exact lt_irrefl _ h1
      · have hlt := hr x hx2
        rw [hxo] at hlt
        exact lt_irrefl _ (lt_trans h1 hlt)
    · by_cases h2 : row.m_offset = r.m_offset
      · simp only [insertRowList, if_neg h1, if_pos h2, if_true]
        rw [List.map_cons, if_pos h2.symm]
        congr 1
        symm
        apply map_replace_no_hit
        intro x hx heq
        have hlt := hr x hx
        rw [heq, ← h2] at hlt
        exact lt_irrefl _ hlt
      · simp only [insertRowList, if_neg h1, if_neg h2]
        rw [List.map_cons, if_neg (fun heq => h2 heq.symm)]
        congr 1
        apply ih hrest
        obtain ⟨x, hx, hxo⟩ := hex
        rcases List.mem_cons.mp hx with rfl | hx2
        · exact absurd hxo.symm h2
        · exact ⟨x, hx2, hxo⟩

theorem foldl_insertRow_pairwise_le (ops : List (Row × Bool)) :
    ∀ p : UnwindPlan,
      p.m_row_list.Pairwise (fun x y => x.m_offset ≤ y.m_offset) →
      ((ops.foldl (fun q rb => q.InsertRow rb.1 rb.2) p).m_row_list).Pairwise
        (fun x y => x.m_offset ≤ y.m_offset) := by
  induction ops with
  | nil =>
    intro p hp
    exact hp
  | cons op rest ih =>
    intro p hp
    rw [List.foldl_cons]
    exact ih _ (by simpa [UnwindPlan.InsertRow] using
      pairwise_le_insertRowList op.1 op.2 _ hp)

/-- Claim C2: InsertRow preserves the sorted-by-code-offset ordering of the
plan's row sequence for every insertion order (any sequence of InsertRow
calls starting from an empty plan leaves the row list sorted); if a row
with the same code offset already exists, InsertRow with
replace_existing = false leaves the plan entirely unchanged (the insert is
a no-op), and with replace_existing = true it replaces exactly that row
with the new one. -/
theorem c2_insert_row (kind : RegisterKind) :
    (∀ ops : List (Row × Bool),
        ((ops.foldl (fun p rb => p.InsertRow rb.1 rb.2)
            (UnwindPlan.init kind)).m_row_list).Pairwise
          (fun x y => x.m_offset ≤ y.m_offset))
    ∧ (∀ (p : UnwindPlan) (row : Row),
        p.m_row_list.Pairwise (fun x y => x.m_offset ≤ y.m_offset) →
        (∃ r ∈ p.m_row_list, r.m_offset = row.m_offset) →
        p.InsertRow row false = p)
    ∧ (∀ (p : UnwindPlan) (row : Row),
        p.m_row_list.Pairwise (fun x y => x.m_offset < y.m_offset) →
        (∃ r ∈ p.m_row_list, r.m_offset = row.m_offset) →
        (p.InsertRow row true).m_row_list
          = p.m_row_list.map (fun x => if x.m_offset = row.m_offset then row else x)) := by
  refine ⟨?_, ?_, ?_⟩
  · intro ops
    apply foldl_insertRow_pairwise_le
    simp [UnwindPlan.init]
  · intro p row hs hex
    have h := insertRowList_existing_no_replace row p.m_row_list hs hex
    unfold UnwindPlan.InsertRow
    rw [h]
  · intro p row hs hex
    have h := insertRowList_existing_replace row p.m_row_list hs hex
    unfold UnwindPlan.InsertRow
    rw [h]

def c2rowA : Row := { m_offset := 4 }

def c2rowB : Row := { m_offset := 4, m_unspecified_registers_are_undefined := true }

def c2plan : UnwindPlan :=
  ((UnwindPlan.init RegisterKind.eRegisterKindDWARF).InsertRow { m_offset := 0 } false).InsertRow
    c2rowA false

theorem c2_insert_row_witness :
    c2plan.InsertRow c2rowB false = c2plan
    ∧ (c2plan.InsertRow c2rowB true).m_row_list
      = c2plan.m_row_list.map
          (fun x => if x.m_offset = c2rowB.m_offset then c2rowB else x) :=
  ⟨(c2_insert_row RegisterKind.eRegisterKindDWARF).2.1 c2plan c2rowB (by decide)
      ⟨c2rowA, by decide, by decide⟩,
   (c2_insert_row RegisterKind.eRegisterKindDWARF).2.2 c2plan c2rowB (by decide)
      ⟨c2rowA, by decide, by decide⟩⟩
